import Mathlib

/-!
A shallow embedding of the SeeSeaIntelligence incremental collection pipeline
(`src/core/collector.py`, `src/collectors/imf_portwatch.py`, `src/core/backfill.py`,
`src/core/processor.py`) together with proofs about its persistence, watermark,
gap-detection and rendering behaviour.

Modelling conventions:
* Calendar dates are epoch-day numbers (`Nat`).  The code keys files and records by
  ISO `YYYY-MM-DD` strings; those strings biject with day numbers and their
  lexicographic order coincides with day order, so `Nat` with `≤` and `+ 1` ("the
  next day", `timedelta(days=1)`) is a faithful image.
* Timestamps (`datetime.utcnow()`) are a `now : Nat` parameter threaded through.
* A variable's data directory (`data/.../chokepoint/variable/`, one `{date}.pckl`
  per day) is an association list `List (Nat × PickleVal)` in creation order;
  `Path.exists` is a key lookup and `open(..., 'wb')` overwrites in place or appends.
* Python's stable `list.sort` / `sorted` is `List.insertionSort`, a stable
  comparison sort computing the same function.
* Fallible operations (exceptions) are `Except String`.
-/

namespace SeeSea

/-- One ArcGIS feature's `attributes` dict as read by
`IMFPortWatchCollector.collect` (src/collectors/imf_portwatch.py).  `attrs.get(k)`
yields `none` when the key is absent.  `date` is the record's epoch-day stamp. -/
structure Feature where
  date : Option Nat
  year : Option Nat
  month : Option Nat
  day : Option Nat
  n_total : Option Nat
  n_container : Option Nat
  n_dry_bulk : Option Nat
  n_general_cargo : Option Nat
  n_roro : Option Nat
  n_tanker : Option Nat
deriving DecidableEq

/-- One element of the `time_series` list built by the fetcher. -/
structure TSEntry where
  date : Nat
  year : Option Nat
  month : Option Nat
  day : Option Nat
  vessel_count : Nat
  container : Nat
  dry_bulk : Nat
  general_cargo : Nat
  roro : Nat
  tanker : Nat
deriving DecidableEq

/-- The dict returned by `IMFPortWatchCollector.collect`.  `total_records`,
`date_range`, `note` and `error` are `Option` because the error dict omits some
keys (`data.get('total_records', 0)` then sees the default). -/
structure FetchData where
  time_series : List TSEntry
  total_records : Option Nat
  date_range : Option (Option Nat × Option Nat)
  timestamp : Nat
  source : String
  chokepoint : String
  variable_name : String
  status : String
  note : Option String
  error : Option String
deriving DecidableEq

/-- Outcome of the upstream interaction inside the fetcher's `try` block: either
some exception (network error, parse error, timeout, unknown chokepoint mapping,
missing API URL — all funnel into the same `except Exception` handler) or the
parsed `features` list of the JSON response. -/
inductive Upstream where
  | failure (msg : String)
  | features (fs : List Feature)
deriving DecidableEq

/-- The entry built for one feature (imf_portwatch.py lines 118-130). -/
def mkEntry (f : Feature) (d : Nat) : TSEntry :=
  { date := d
    year := f.year
    month := f.month
    day := f.day
    vessel_count := f.n_total.getD 0
    container := f.n_container.getD 0
    dry_bulk := f.n_dry_bulk.getD 0
    general_cargo := f.n_general_cargo.getD 0
    roro := f.n_roro.getD 0
    tanker := f.n_tanker.getD 0 }

/-- Body of the feature loop (imf_portwatch.py lines 109-130): skip a record whose
`date` is absent or falsy (`if date_ms:` — epoch 0 counts as absent), skip records
strictly before `start_date`, otherwise build the entry. -/
def featureEntry (start_date : Option Nat) (f : Feature) : Option TSEntry :=
  match f.date with
  | none => none
  | some d =>
    if d = 0 then none
    else
      match start_date with
      | some s => if d < s then none else some (mkEntry f d)
      | none => some (mkEntry f d)

/-- `IMFPortWatchCollector.collect`: every exception inside the `try` is caught and
returned as the error dict; an empty `features` list returns the
"No new data available" success dict; otherwise the features are filtered,
converted and sorted ascending by date. -/
def imf_collect (u : Upstream) (start_date : Option Nat) (now : Nat)
    (source_url ck var : String) : FetchData :=
  match u with
  | .failure msg =>
    { time_series := []
      total_records := none
      date_range := none
      timestamp := now
      source := source_url
      chokepoint := ck
      variable_name := var
      status := "error"
      note := none
      error := some msg }
  | .features [] =>
    { time_series := []
      total_records := some 0
      date_range := some (none, none)
      timestamp := now
      source := source_url
      chokepoint := ck
      variable_name := var
      status := "success"
      note := some "No new data available"
      error := none }
  | .features fs =>
    let ts := List.insertionSort (fun a b => a.date ≤ b.date) (fs.filterMap (featureEntry start_date))
    { time_series := ts
      total_records := some ts.length
      date_range := some (ts.head?.map (·.date), ts.getLast?.map (·.date))
      timestamp := now
      source := source_url
      chokepoint := ck
      variable_name := var
      status := "success"
      note := none
      error := none }

/-- The `breakdown` sub-dict written by `DataCollector.save_data`. -/
structure Breakdown where
  container : Nat
  dry_bulk : Nat
  general_cargo : Nat
  roro : Nat
  tanker : Nat
deriving DecidableEq

/-- The daily data package pickled per date by `save_data`
(src/core/collector.py lines 166-181). -/
structure DailyData where
  date : Nat
  vessel_count : Nat
  breakdown : Breakdown
  collected_at : Nat
  source : String
  chokepoint : String
  variable_name : String
  status : String
deriving DecidableEq

/-- A value pickled into a `{date}.pckl` file: the daily package from the main
branch, or the raw fetch dict dumped by the defensive fall-back branch
(collector.py lines 201-209). -/
inductive PickleVal where
  | daily (d : DailyData)
  | raw (d : FetchData)
deriving DecidableEq

/-- The per-variable data directory: `{date}.pckl` files keyed by their stem, in
creation order. -/
abbrev Store := List (Nat × PickleVal)

/-- `file_path.exists()` for `{d}.pckl`. -/
def fileExists (store : Store) (d : Nat) : Bool :=
  (store.map Prod.fst).contains d

/-- `open(file_path, 'wb')`: overwrite the file if present, create it otherwise. -/
def writeFile (store : Store) (d : Nat) (v : PickleVal) : Store :=
  if fileExists store d then
    store.map (fun p => if p.1 = d then (d, v) else p)
  else
    store ++ [(d, v)]

/-- The `_metadata.json` contents (collector.py `_update_metadata`):
`latest_date` and `last_updated`. -/
structure Watermark where
  latest_date : Nat
  last_updated : Nat
deriving DecidableEq

/-- The daily package built for one time-series record (collector.py lines 166-181):
`daily_record['date']`, `daily_record['vessel_count']`, the five
`daily_record.get(..., 0)` breakdown fields, and the batch-level metadata. -/
def mkDaily (ck var : String) (data : FetchData) (r : TSEntry) : DailyData :=
  { date := r.date
    vessel_count := r.vessel_count
    breakdown :=
      { container := r.container
        dry_bulk := r.dry_bulk
        general_cargo := r.general_cargo
        roro := r.roro
        tanker := r.tanker }
    collected_at := data.timestamp
    source := data.source
    chokepoint := ck
    variable_name := var
    status := data.status }

/-- The per-record loop of `save_data` (collector.py lines 156-186): skip when the
date's file already exists (counting it skipped), otherwise write the daily
package and count it saved. -/
def saveLoop (ck var : String) (data : FetchData) :
    List TSEntry → Store → Nat → Nat → Store × Nat × Nat
  | [], store, saved, skipped => (store, saved, skipped)
  | r :: rest, store, saved, skipped =>
    if fileExists store r.date then
      saveLoop ck var data rest store saved (skipped + 1)
    else
      saveLoop ck var data rest (writeFile store r.date (.daily (mkDaily ck var data r))) (saved + 1) skipped

/-- Result of `save_data`: the directory, the metadata file, and the printed
saved/skipped counters. -/
structure SaveOutcome where
  store : Store
  meta : Option Watermark
  saved : Nat
  skipped : Nat
deriving DecidableEq

/-- `DataCollector.save_data` (collector.py lines 128-209).  With a non-empty
`time_series` it runs the per-date loop and then unconditionally rewrites the
metadata with `time_series[-1]['date']` and `now`; with no time-series data it
writes nothing when `total_records` defaults to 0, and otherwise dumps the raw
dict under today's date. -/
def save_data (store : Store) (meta : Option Watermark) (ck var : String)
    (data : FetchData) (now : Nat) : SaveOutcome :=
  if data.time_series.isEmpty then
    if data.total_records.getD 0 = 0 then
      { store := store, meta := meta, saved := 0, skipped := 0 }
    else
      { store := writeFile store now (.raw data), meta := meta, saved := 0, skipped := 0 }
  else
    let out := saveLoop ck var data data.time_series store 0 0
    let meta2 :=
      match data.time_series.getLast? with
      | some last => some ({ latest_date := last.date, last_updated := now } : Watermark)
      | none => meta
    { store := out.1, meta := meta2, saved := out.2.1, skipped := out.2.2 }

/-- The incremental range hint (collector.py lines 102-114): with a metadata file,
fetch from the day after its `latest_date`; otherwise fetch everything. -/
def startHint (incremental : Bool) (meta : Option Watermark) : Option Nat :=
  if incremental then
    match meta.map (·.latest_date) with
    | some l => some (l + 1)
    | none => none
  else
    none

/-- Everything `DataCollector.collect` produces: the returned fetch dict plus the
state written by `save_data`. -/
structure CollectOutcome where
  data : FetchData
  store : Store
  meta : Option Watermark
  saved : Nat
  skipped : Nat
deriving DecidableEq

/-- `DataCollector.collect` (collector.py lines 78-126) after config resolution:
compute the incremental start hint, run the fetcher on the upstream outcome, and
persist via `save_data`. -/
def collect (u : Upstream) (incremental : Bool) (store : Store)
    (meta : Option Watermark) (now : Nat) (source_url ck var : String) : CollectOutcome :=
  let sd := startHint incremental meta
  let data := imf_collect u sd now source_url ck var
  let out := save_data store meta ck var data now
  { data := data, store := out.store, meta := out.meta, saved := out.saved, skipped := out.skipped }

/-- The mutable state of one (chokepoint, variable) pair: its data directory and
its metadata file. -/
structure CState where
  store : Store
  meta : Option Watermark
deriving DecidableEq

/-- One scheduled `collect` invocation: the upstream outcome it observes, its
`incremental` flag, and the wall-clock time. -/
def collectStep (src ck var : String) (st : CState) (step : Upstream × Bool × Nat) : CState :=
  let o := collect step.1 step.2.1 st.store st.meta step.2.2 src ck var
  { store := o.store, meta := o.meta }

/-- A sequence of `collect` invocations against the same (chokepoint, variable). -/
def collectSeq (src ck var : String) (steps : List (Upstream × Bool × Nat)) (st : CState) : CState :=
  steps.foldl (collectStep src ck var) st

/-- The dates for which an observation file is stored. -/
def storeDates (store : Store) : List Nat :=
  store.map Prod.fst

/-- `BackfillManager.get_missing_dates` helper: the dates generated by the
`while current <= end` loop (backfill.py lines 49-53), ascending from `start` to
`finish` inclusive (empty when `start > finish`). -/
def all_dates (start finish : Nat) : List Nat :=
  (List.range (finish + 1 - start)).map (start + ·)

/-- `BackfillManager.get_missing_dates` (backfill.py lines 25-68).  `dirExists`
and `existing` describe the variable's data directory (`existing` is the set of
`*.pckl` stems); `start_date = none` selects the 30-days-ago default; the range
end is always `datetime.utcnow()`.  With no data directory every date in range is
returned; otherwise the dates without a stored file, in generation order. -/
def get_missing_dates (dirExists : Bool) (existing : List Nat)
    (start_date : Option Nat) (now : Nat) : List Nat :=
  let start := match start_date with
    | none => now - 30
    | some s => s
  let ds := all_dates start now
  if !dirExists then
    ds
  else
    ds.filter (fun d => !(existing.contains d))

/-- The inner per-variable loop of `get_all_missing_dates` (backfill.py lines
98-101), run inside that chokepoint's `try`: each successful scan with a
non-empty result is inserted into the accumulated dict; the first raising scan
aborts the rest of this chokepoint's variables, keeping what was already
inserted (the `except` clause only logs). -/
def scanVarsLoop (scan : String → String → Except String (List Nat)) (c : String) :
    List String → List ((String × String) × List Nat) → List ((String × String) × List Nat)
  | [], acc => acc
  | v :: rest, acc =>
    match scan c v with
    | .error _ => acc
    | .ok m => scanVarsLoop scan c rest (if m.isEmpty then acc else acc ++ [((c, v), m)])

/-- The outer chokepoint loop of `get_all_missing_dates` (backfill.py lines
84-104): a chokepoint whose config fails to load is logged and skipped;
otherwise its variables are scanned into the accumulated dict. -/
def allMissingLoop (scan : String → String → Except String (List Nat)) :
    List (String × Except String (List String)) →
    List ((String × String) × List Nat) → List ((String × String) × List Nat)
  | [], acc => acc
  | p :: rest, acc =>
    match p.2 with
    | .error _ => allMissingLoop scan rest acc
    | .ok vars => allMissingLoop scan rest (scanVarsLoop scan p.1 vars acc)

/-- `BackfillManager.get_all_missing_dates` (backfill.py lines 70-106).  `cfg`
lists the chokepoint directories that contain a `state_variables.json`, each with
the outcome of loading it (`.error` = `json.load`/`open` raised); `scan c v`
is the outcome of `get_missing_dates` for that pair (`.error` = it raised). -/
def get_all_missing_dates (cfg : List (String × Except String (List String)))
    (scan : String → String → Except String (List Nat)) :
    List ((String × String) × List Nat) :=
  allMissingLoop scan cfg []

/-- Comparison definition (from the spec's words, §4.3 and the failure-isolation
property): the missing-date entries of one chokepoint in isolation — each
variable scanned independently until the first failure of this chokepoint. -/
def perChokeResult (scan : String → String → Except String (List Nat)) (c : String) :
    List String → List ((String × String) × List Nat)
  | [] => []
  | v :: rest =>
    match scan c v with
    | .error _ => []
    | .ok m => (if m.isEmpty then [] else [((c, v), m)]) ++ perChokeResult scan c rest

/-- Comparison definition: the concatenation of every chokepoint's isolated
contribution — what a scan with per-chokepoint failure isolation returns. -/
def allChokeResults (scan : String → String → Except String (List Nat)) :
    List (String × Except String (List String)) → List ((String × String) × List Nat)
  | [] => []
  | p :: rest =>
    (match p.2 with
     | .error _ => []
     | .ok vars => perChokeResult scan p.1 vars) ++ allChokeResults scan rest

/-! ### The processor (`src/core/processor.py`)

A rendered CSV artifact is its character content.  `csv.DictWriter` with the
default dialect terminates each row with `"\r\n"`; fields here (digit strings and
plain names) never need quoting. -/

/-- A text file's content. -/
abbrev Content := List Char

/-- The `"\r\n"` row terminator of the csv module's default dialect. -/
def crlf : Content := ['\r', '\n']

/-- Splitting file content at `"\r\n"` row terminators, as the csv reader does on
a file whose rows were written by `csv.DictWriter`. -/
def splitCRLF : List Char → List (List Char)
  | [] => [[]]
  | '\r' :: '\n' :: rest => [] :: splitCRLF rest
  | c :: rest =>
    match splitCRLF rest with
    | [] => [[c]]
    | l :: ls => (c :: l) :: ls

/-- The first comma-separated field of a CSV line — the `date` column, which
`process_to_csv` writes first. -/
def firstField : List Char → List Char
  | [] => []
  | ',' :: _ => []
  | c :: rest => c :: firstField rest

/-- `DataProcessor._get_processed_dates_from_csv` (processor.py lines 269-286):
read the artifact with `csv.DictReader` (first row is the header, blank rows are
skipped) and collect each row's `date` column. -/
def parseCsvDates (content : Content) : List Content :=
  ((splitCRLF content).drop 1).filterMap
    (fun line => if line.isEmpty then none else some (firstField line))

/-- The decimal rendering of a date key — the model of the ISO `YYYY-MM-DD`
string: distinct dates render to distinct strings. -/
def natChars (n : Nat) : List Char :=
  Nat.toDigits 10 n

/-- One flat CSV row as built by `process_to_csv` (processor.py lines 91-102 and
140-151). -/
structure CsvRow where
  date : Nat
  vessel_count : Nat
  container : Nat
  dry_bulk : Nat
  general_cargo : Nat
  roro : Nat
  tanker : Nat
  collected_at : Content
  chokepoint : Content
  variable_name : Content
deriving DecidableEq

/-- The serialized form of one row (`csv.DictWriter.writerows`). -/
def rowLine (r : CsvRow) : Content :=
  natChars r.date ++ [','] ++ natChars r.vessel_count ++ [','] ++
  natChars r.container ++ [','] ++ natChars r.dry_bulk ++ [','] ++
  natChars r.general_cargo ++ [','] ++ natChars r.roro ++ [','] ++
  natChars r.tanker ++ [','] ++ r.collected_at ++ [','] ++
  r.chokepoint ++ [','] ++ r.variable_name ++ crlf

/-- The header row written by `writer.writeheader()`. -/
def headerLine : Content :=
  ("date,vessel_count,container,dry_bulk,general_cargo,roro,tanker," ++
   "collected_at,chokepoint,variable").data ++ crlf

/-- `writer.writerows(all_data)`. -/
def writeRows (rows : List CsvRow) : Content :=
  (rows.map rowLine).flatten

/-- The `breakdown` sub-dict of a stored record as the processor reads it back:
any key may be absent. -/
structure BreakdownFields where
  container : Option Nat
  dry_bulk : Option Nat
  general_cargo : Option Nat
  roro : Option Nat
  tanker : Option Nat
deriving DecidableEq

/-- An arbitrary unpickled stored record as the processor sees it: possibly not a
dict at all (`isDict = false`), and with every key possibly absent. -/
structure RawStored where
  isDict : Bool
  date : Option Nat
  vessel_count : Option Nat
  breakdown : Option BreakdownFields
  collected_at : Option Content
  chokepoint : Option Content
  variable_name : Option Content
deriving DecidableEq

/-- The row built in the guarded collection loop (processor.py lines 91-102):
every field read with `.get` and a default, the `date` defaulting to the file
stem and `chokepoint`/`variable` to the call arguments. -/
def incRow (stem : Nat) (ck var : Content) (r : RawStored) : CsvRow :=
  { date := r.date.getD stem
    vessel_count := r.vessel_count.getD 0
    container := (r.breakdown.bind (·.container)).getD 0
    dry_bulk := (r.breakdown.bind (·.dry_bulk)).getD 0
    general_cargo := (r.breakdown.bind (·.general_cargo)).getD 0
    roro := (r.breakdown.bind (·.roro)).getD 0
    tanker := (r.breakdown.bind (·.tanker)).getD 0
    collected_at := r.collected_at.getD []
    chokepoint := r.chokepoint.getD ck
    variable_name := r.variable_name.getD var }

/-- `data[k]`: a `KeyError` when the key is absent. -/
def keyGet {α : Type} (o : Option α) (k : String) : Except String α :=
  match o with
  | some a => Except.ok a
  | none => Except.error ("KeyError: " ++ k)

/-- The row built in the full-rewrite loop (processor.py lines 140-151): every
field accessed by subscript, so a non-dict record or any missing key raises. -/
def fullRow (r : RawStored) : Except String CsvRow :=
  if !r.isDict then Except.error "TypeError: record is not a dict"
  else do
    let d ← keyGet r.date "date"
    let vc ← keyGet r.vessel_count "vessel_count"
    let bd ← keyGet r.breakdown "breakdown"
    let c ← keyGet bd.container "container"
    let db ← keyGet bd.dry_bulk "dry_bulk"
    let gc ← keyGet bd.general_cargo "general_cargo"
    let rr ← keyGet bd.roro "roro"
    let tk ← keyGet bd.tanker "tanker"
    let ca ← keyGet r.collected_at "collected_at"
    let ckv ← keyGet r.chokepoint "chokepoint"
    let vn ← keyGet r.variable_name "variable"
    Except.ok
      { date := d, vessel_count := vc, container := c, dry_bulk := db,
        general_cargo := gc, roro := rr, tanker := tk,
        collected_at := ca, chokepoint := ckv, variable_name := vn }

/-- The full-rewrite loop of `process_to_csv` (processor.py lines 131-152):
rebuild the row list from every pickle file with unguarded subscript access;
the first raising record aborts the loop (and with it the render). -/
def fullRowsLoop : List (Nat × RawStored) → Except String (List CsvRow)
  | [] => Except.ok []
  | p :: rest =>
    match fullRow p.2 with
    | .error e => Except.error e
    | .ok row =>
      match fullRowsLoop rest with
      | .error e => Except.error e
      | .ok rows => Except.ok (row :: rows)

/-- The trailing-newline probe (processor.py lines 111-115): `f.seek(-1, 2)`
raises `OSError` on a zero-byte file; otherwise report whether the last byte is
not a newline. -/
def trailingNewlineCheck (content : Content) : Except String Bool :=
  match content.getLast? with
  | none => Except.error "OSError: Invalid argument"
  | some c => Except.ok (c != '\n')

/-- The guarded collection loop of `process_to_csv` (processor.py lines 70-105):
skip files whose date is already in the artifact, skip records that are not a
dict or lack a `date` key (with a warning), and build the flat row for the rest. -/
def collectLoop (processed_dates : List Content) (ck var : Content)
    (files : List (Nat × RawStored)) : List CsvRow :=
  files.filterMap (fun p =>
    if processed_dates.contains (natChars p.1) then none
    else if !p.2.isDict || p.2.date.isNone then none
    else some (incRow p.1 ck var p.2))

/-- `DataProcessor.process_to_csv` (processor.py lines 29-167).  `raw_dir` is the
variable's data directory listing (`none` = directory missing), `csvFile` the
existing artifact's content (`none` = no artifact).  Returns the artifact's final
content, or the exception that aborted the render.  The directory listing is
sorted by stem as `sorted(raw_dir.glob('*.pckl'))` does (ISO stems sort
chronologically); the `_`-prefixed metadata file is not a `*.pckl` and never
appears in the listing. -/
def process_to_csv (incremental : Bool) (raw_dir : Option (List (Nat × RawStored)))
    (csvFile : Option Content) (ck var : Content) : Except String (Option Content) :=
  match raw_dir with
  | none => Except.error "FileNotFoundError: raw data directory not found"
  | some entries =>
    let pickle_files := List.insertionSort (fun a b => a.1 ≤ b.1) entries
    if pickle_files.isEmpty then Except.error "FileNotFoundError: no pickle files" else
    let processed_dates : List Content :=
      if incremental then
        match csvFile with
        | some c => parseCsvDates c
        | none => []
      else []
    let all_data := collectLoop processed_dates ck var pickle_files
    if incremental && csvFile.isSome && !all_data.isEmpty then
      match csvFile with
      | some content =>
        match trailingNewlineCheck content with
        | .error e => Except.error e
        | .ok nl => Except.ok (some (content ++ (if nl then ['\n'] else []) ++ writeRows all_data))
      | none => Except.ok none
    else if !all_data.isEmpty then
      if !incremental || csvFile.isNone then
        match fullRowsLoop pickle_files with
        | .error e => Except.error e
        | .ok rows => Except.ok (some (headerLine ++ writeRows rows))
      else
        Except.ok (some (headerLine ++ writeRows all_data))
    else
      Except.ok csvFile

/-- One element of the `all_data` list built by `process_to_json` in `records`
format (processor.py lines 207-219): the four fields read by subscript (the
`breakdown` sub-dict is embedded as-is).  The output envelope (chokepoint,
variable, `total_records`, date range, `processed_at`) is metadata around this
list and is elided. -/
structure JsonEntry where
  date : Nat
  vessel_count : Nat
  breakdown : BreakdownFields
  collected_at : Content
deriving DecidableEq

/-- The per-record body of the `process_to_json` loop: every field accessed by
subscript, so a non-dict record or a missing key raises. -/
def jsonEntryOf (r : RawStored) : Except String JsonEntry :=
  if !r.isDict then Except.error "TypeError: record is not a dict"
  else do
    let d ← keyGet r.date "date"
    let vc ← keyGet r.vessel_count "vessel_count"
    let bd ← keyGet r.breakdown "breakdown"
    let ca ← keyGet r.collected_at "collected_at"
    Except.ok { date := d, vessel_count := vc, breakdown := bd, collected_at := ca }

/-- The per-file loop of `process_to_json` in `records` format (processor.py
lines 207-219): unguarded subscript access, the first raising record aborts. -/
def jsonRowsLoop : List (Nat × RawStored) → Except String (List JsonEntry)
  | [] => Except.ok []
  | p :: rest =>
    match jsonEntryOf p.2 with
    | .error e => Except.error e
    | .ok row =>
      match jsonRowsLoop rest with
      | .error e => Except.error e
      | .ok rows => Except.ok (row :: rows)

/-- `DataProcessor.process_to_json` (processor.py lines 169-267), reduced to the
record list it renders: directory and emptiness checks, then the unguarded
per-file loop. -/
def process_to_json (raw_dir : Option (List (Nat × RawStored))) :
    Except String (List JsonEntry) :=
  match raw_dir with
  | none => Except.error "FileNotFoundError: raw data directory not found"
  | some entries =>
    let pickle_files := List.insertionSort (fun a b => a.1 ≤ b.1) entries
    if pickle_files.isEmpty then Except.error "FileNotFoundError: no pickle files"
    else jsonRowsLoop pickle_files

/-! ### Auxiliary definitions and concrete data used by the theorems -/

/-- The `latest_date` recorded in the metadata file, if any. -/
def wmLatest (m : Option Watermark) : Option Nat :=
  m.map (·.latest_date)

/-- "The recorded latest date did not decrease": whenever a latest date was
recorded before, one is recorded after, and it is at least as large. -/
def optLe (a b : Option Nat) : Prop :=
  ∀ x, a = some x → ∃ y, b = some y ∧ x ≤ y

/-- A sample upstream feature dated `d`. -/
def exFeature (d : Nat) : Feature :=
  { date := some d
    year := none
    month := none
    day := none
    n_total := some 7
    n_container := some 2
    n_dry_bulk := some 1
    n_general_cargo := some 1
    n_roro := some 1
    n_tanker := some 2 }

/-- A sample run: a batch with an in-batch duplicate date, a network failure, and
a later full-mode batch. -/
def exSteps : List (Upstream × Bool × Nat) :=
  [(Upstream.features [exFeature 5, exFeature 5, exFeature 3], true, 10),
   (Upstream.failure "ConnectionError", true, 11),
   (Upstream.features [exFeature 6], false, 12)]

/-- A sample well-formed stored record whose internal date equals its file stem
(exactly what `save_data` writes). -/
def exGoodStored (d : Nat) : RawStored :=
  { isDict := true
    date := some d
    vessel_count := some 7
    breakdown := some
      { container := some 2
        dry_bulk := some 1
        general_cargo := some 1
        roro := some 1
        tanker := some 2 }
    collected_at := some "t0".data
    chokepoint := some "bab-el-mandeb".data
    variable_name := some "vessel_arrivals".data }

/-- A malformed stored record: a dict that lacks the `date` key. -/
def exBadStored : RawStored :=
  { isDict := true
    date := none
    vessel_count := some 7
    breakdown := none
    collected_at := none
    chokepoint := none
    variable_name := none }

/-- A sample data directory for the renderer: dates 5 to 7, all well-formed. -/
def exC7Entries : List (Nat × RawStored) :=
  [(5, exGoodStored 5), (6, exGoodStored 6), (7, exGoodStored 7)]

/-- A sample existing CSV artifact, as a full write of the date-5 row produces
it: the header plus one row, ending in a newline. -/
def exC7Content : Content :=
  headerLine ++ rowLine (incRow 5 "c".data "v".data (exGoodStored 5))

/-- A sample data directory with a malformed record between two well-formed
ones. -/
def exC8Entries : List (Nat × RawStored) :=
  [(5, exGoodStored 5), (6, exBadStored), (7, exGoodStored 7)]

/-- A sample configuration tree: two chokepoints, the first with two variables. -/
def exCfg : List (String × Except String (List String)) :=
  [("A", Except.ok ["v1", "v2"]), ("B", Except.ok ["v3"])]

/-- A sample scan outcome: scanning `A.v1` raises, every other scan succeeds
with a non-empty missing list. -/
def exScan : String → String → Except String (List Nat) :=
  fun c v =>
    if c = "A" ∧ v = "v1" then Except.error "OSError"
    else if c = "A" then Except.ok [1]
    else Except.ok [2]

/-! ### Helper lemmas -/

theorem fileExists_iff (s : Store) (d : Nat) : fileExists s d = true ↔ d ∈ storeDates s := by
  simp [fileExists, storeDates]

theorem storeDates_overwrite (s : Store) (d : Nat) (v : PickleVal) :
    storeDates (s.map fun p => if p.1 = d then (d, v) else p) = storeDates s := by
  induction s with
  | nil => rfl
  | cons a t ih =>
    by_cases h : a.1 = d
    · simp only [storeDates, List.map_cons, if_pos h] at ih ⊢
      rw [ih]
      simp [h]
    · simp only [storeDates, List.map_cons, if_neg h] at ih ⊢
      rw [ih]

theorem nodup_writeFile {s : Store} (d : Nat) (v : PickleVal)
    (h : (storeDates s).Nodup) : (storeDates (writeFile s d v)).Nodup := by
  unfold writeFile
  cases hex : fileExists s d with
  | true => simpa [storeDates_overwrite] using h
  | false =>
    have hd : d ∉ storeDates s := by
      intro hmem
      rw [(fileExists_iff s d).mpr hmem] at hex
      cases hex
    have hsplit : storeDates (s ++ [(d, v)]) = storeDates s ++ [d] := by
      simp [storeDates]
    simp only [Bool.false_eq_true, if_false]
    rw [hsplit, List.nodup_append]
    refine ⟨h, List.nodup_singleton d, ?_⟩
    intro a ha hb
    rw [List.mem_singleton] at hb
    exact hd (hb ▸ ha)

theorem saveLoop_nodup (ck var : String) (data : FetchData) :
    ∀ (ts : List TSEntry) (s : Store) (a b : Nat),
      (storeDates s).Nodup → (storeDates (saveLoop ck var data ts s a b).1).Nodup := by
  intro ts
  induction ts with
  | nil =>
    intro s a b h
    simpa [saveLoop] using h
  | cons r rest ih =>
    intro s a b h
    rw [saveLoop]
    cases hex : fileExists s r.date with
    | true => simpa using ih s a (b + 1) h
    | false => simpa using ih _ (a + 1) b (nodup_writeFile r.date _ h)

theorem save_data_nodup (s : Store) (m : Option Watermark) (ck var : String)
    (data : FetchData) (now : Nat) (h : (storeDates s).Nodup) :
    (storeDates (save_data s m ck var data now).store).Nodup := by
  unfold save_data
  cases hts : data.time_series.isEmpty with
  | true =>
    by_cases h2 : data.total_records.getD 0 = 0
    · simpa [h2] using h
    · simpa [h2] using nodup_writeFile now _ h
  | false =>
    simpa using saveLoop_nodup ck var data data.time_series s 0 0 h

theorem collectStep_nodup (src ck var : String) (st : CState) (p : Upstream × Bool × Nat)
    (h : (storeDates st.store).Nodup) :
    (storeDates (collectStep src ck var st p).store).Nodup :=
  save_data_nodup st.store st.meta ck var _ p.2.2 h

/-! ### C1 -/

/-- C1: for every chokepoint, variable and date, after any sequence of `collect`
calls at most one observation file is stored per date in that variable's data
directory — `save_data` keys each file by its date and skips the write when a
file for that date already exists, so the list of stored date keys stays
duplicate-free through any sequence of collections (overlapping fetch windows,
re-runs, duplicate dates within one batch, failures, full or incremental mode). -/
theorem c1_no_duplicate_observation_dates (src ck var : String)
    (steps : List (Upstream × Bool × Nat)) (st : CState)
    (h : (storeDates st.store).Nodup) :
    (storeDates (collectSeq src ck var steps st).store).Nodup := by
  induction steps generalizing st with
  | nil => exact h
  | cons p rest ih =>
    have hstep := collectStep_nodup src ck var st p h
    simpa [collectSeq, List.foldl_cons] using ih (collectStep src ck var st p) hstep

/-- C1 witness: starting from an empty directory, a run whose first batch holds
a duplicated date, then a failing fetch, then a full-mode re-fetch of an already
stored plus a fresh date leaves the stored date keys duplicate-free. -/
theorem c1_witness :
    (storeDates (⟨[], none⟩ : CState).store).Nodup ∧
    (storeDates (collectSeq "s" "c" "v" exSteps ⟨[], none⟩).store).Nodup :=
  ⟨by decide, c1_no_duplicate_observation_dates "s" "c" "v" exSteps ⟨[], none⟩ (by decide)⟩

/-! ### C3 -/

/-- C3: calling `collect` twice in a row when the upstream fetch succeeds with
zero records yields zero written files both times, both calls return the
success dict with an empty time series and the "No new data available" note
rather than an error, and neither call changes the data directory or the
watermark metadata. -/
theorem c3_idempotent_no_new_data (incremental : Bool) (st : CState)
    (now1 now2 : Nat) (src ck var : String) :
    (collect (Upstream.features []) incremental st.store st.meta now1 src ck var).saved = 0 ∧
    (collect (Upstream.features []) incremental st.store st.meta now1 src ck var).data.status = "success" ∧
    (collect (Upstream.features []) incremental st.store st.meta now1 src ck var).data.time_series = [] ∧
    (collect (Upstream.features []) incremental st.store st.meta now1 src ck var).data.note =
      some "No new data available" ∧
    (collect (Upstream.features []) incremental st.store st.meta now1 src ck var).store = st.store ∧
    (collect (Upstream.features []) incremental st.store st.meta now1 src ck var).meta = st.meta ∧
    (collect (Upstream.features []) incremental st.store st.meta now2 src ck var).saved = 0 ∧
    (collect (Upstream.features []) incremental st.store st.meta now2 src ck var).data.status = "success" ∧
    (collect (Upstream.features []) incremental st.store st.meta now2 src ck var).data.note =
      some "No new data available" ∧
    (collect (Upstream.features []) incremental st.store st.meta now2 src ck var).store = st.store ∧
    (collect (Upstream.features []) incremental st.store st.meta now2 src ck var).meta = st.meta :=
  ⟨rfl, rfl, rfl, rfl, rfl, rfl, rfl, rfl, rfl, rfl, rfl⟩

/-! ### C4 -/

/-- C4: any upstream fetcher failure during `collect` (network error, parse
error, timeout, unknown chokepoint mapping, missing API URL — all exceptions of
the fetcher's `try` block) is converted into a returned dict with status
"error" and an empty observation list — `collect` still returns a value, the
exception never escapes it; nothing is persisted, the watermark metadata is
untouched, and the next invocation's range hint is therefore unchanged. -/
theorem c4_fetch_failure_contained (msg : String) (incremental : Bool)
    (st : CState) (now : Nat) (src ck var : String) :
    (collect (Upstream.failure msg) incremental st.store st.meta now src ck var).data.status = "error" ∧
    (collect (Upstream.failure msg) incremental st.store st.meta now src ck var).data.time_series = [] ∧
    (collect (Upstream.failure msg) incremental st.store st.meta now src ck var).data.error = some msg ∧
    (collect (Upstream.failure msg) incremental st.store st.meta now src ck var).saved = 0 ∧
    (collect (Upstream.failure msg) incremental st.store st.meta now src ck var).store = st.store ∧
    (collect (Upstream.failure msg) incremental st.store st.meta now src ck var).meta = st.meta ∧
    startHint incremental (collect (Upstream.failure msg) incremental st.store st.meta now src ck var).meta =
      startHint incremental st.meta :=
  ⟨rfl, rfl, rfl, rfl, rfl, rfl, rfl⟩

/-! ### C2 -/

theorem save_data_meta_unchanged (s : Store) (m : Option Watermark) (ck var : String)
    (data : FetchData) (now : Nat) (h : data.time_series = []) :
    (save_data s m ck var data now).meta = m := by
  unfold save_data
  rw [h]
  by_cases h2 : data.total_records.getD 0 = 0
  · simp [h2]
  · simp [h2]

theorem save_data_meta_updated (s : Store) (m : Option Watermark) (ck var : String)
    (data : FetchData) (now : Nat) (last : TSEntry)
    (h : data.time_series.getLast? = some last) :
    (save_data s m ck var data now).meta = some { latest_date := last.date, last_updated := now } := by
  unfold save_data
  cases hts : data.time_series with
  | nil => rw [hts] at h; cases h
  | cons t1 trest =>
    rw [hts] at h
    simp only [List.isEmpty_cons, Bool.false_eq_true, if_false, h]

theorem pairwise_le_getLast :
    ∀ (l : List TSEntry) (x : TSEntry),
      l.Pairwise (fun a b => a.date ≤ b.date) → l.getLast? = some x →
      ∀ e ∈ l, e.date ≤ x.date := by
  intro l
  induction l with
  | nil => intro x _ hl; cases hl
  | cons a t ih =>
    intro x hp hl e he
    cases t with
    | nil =>
      simp only [List.getLast?_singleton, Option.some.injEq] at hl
      rcases List.mem_singleton.mp he with rfl
      exact hl ▸ Nat.le_refl _
    | cons b t2 =>
      rw [List.getLast?_cons_cons] at hl
      rcases List.pairwise_cons.mp hp with ⟨ha, hp2⟩
      rcases List.mem_cons.mp he with rfl | he2
      · exact ha x (List.mem_of_getLast?_eq_some hl)
      · exact ih x hp2 hl e he2

theorem imf_ts_sorted (u : Upstream) (sd : Option Nat) (now : Nat) (src ck var : String) :
    (imf_collect u sd now src ck var).time_series.Pairwise (fun a b => a.date ≤ b.date) := by
  cases u with
  | failure msg => exact List.Pairwise.nil
  | features fs =>
    cases fs with
    | nil => exact List.Pairwise.nil
    | cons f fs2 =>
      haveI : IsTotal TSEntry (fun a b => a.date ≤ b.date) := ⟨fun a b => Nat.le_total a.date b.date⟩
      haveI : IsTrans TSEntry (fun a b => a.date ≤ b.date) := ⟨fun _ _ _ => Nat.le_trans⟩
      exact List.sorted_insertionSort _ _

/-- C2 counterexample: the claim fails on the code.  From an empty state, a
full-mode collect of a single record dated 5 at time 0 stores it and writes the
watermark (5, 0).  Re-collecting the same record at time 100 writes nothing
(`written = 0`, `skipped = 1`), yet the persist phase still rewrites the
watermark — `save_data` updates the metadata whenever `time_series` is
non-empty, not only when something was newly written — so the watermark changes
to (5, 100). -/
theorem c2_counterexample :
    (collect (Upstream.features [exFeature 5]) false
        (collectStep "s" "c" "v" ⟨[], none⟩ (Upstream.features [exFeature 5], false, 0)).store
        (collectStep "s" "c" "v" ⟨[], none⟩ (Upstream.features [exFeature 5], false, 0)).meta
        100 "s" "c" "v").saved = 0 ∧
    (collect (Upstream.features [exFeature 5]) false
        (collectStep "s" "c" "v" ⟨[], none⟩ (Upstream.features [exFeature 5], false, 0)).store
        (collectStep "s" "c" "v" ⟨[], none⟩ (Upstream.features [exFeature 5], false, 0)).meta
        100 "s" "c" "v").skipped = 1 ∧
    (collectStep "s" "c" "v" ⟨[], none⟩ (Upstream.features [exFeature 5], false, 0)).meta =
      some { latest_date := 5, last_updated := 0 } ∧
    (collect (Upstream.features [exFeature 5]) false
        (collectStep "s" "c" "v" ⟨[], none⟩ (Upstream.features [exFeature 5], false, 0)).store
        (collectStep "s" "c" "v" ⟨[], none⟩ (Upstream.features [exFeature 5], false, 0)).meta
        100 "s" "c" "v").meta =
      some { latest_date := 5, last_updated := 100 } := by
  decide

/-- C2 (amended): after the persist phase of `collect`, if the processed batch
is non-empty the watermark is updated — its latest date set to the maximum date
among all observations just processed (new or skipped, the last entry of the
ascending-sorted batch) and its last-updated stamp set to now — even when no
observation was newly written; only a persist phase that processes no records
(empty batch or failed fetch) leaves the watermark unchanged. -/
theorem c2_watermark_update_on_nonempty_batch (u : Upstream) (incremental : Bool)
    (st : CState) (now : Nat) (src ck var : String) :
    ((collect u incremental st.store st.meta now src ck var).data.time_series = [] →
      (collect u incremental st.store st.meta now src ck var).meta = st.meta) ∧
    (∀ last,
      (collect u incremental st.store st.meta now src ck var).data.time_series.getLast? = some last →
      (collect u incremental st.store st.meta now src ck var).meta =
        some { latest_date := last.date, last_updated := now } ∧
      ∀ e ∈ (collect u incremental st.store st.meta now src ck var).data.time_series,
        e.date ≤ last.date) := by
  constructor
  · intro h
    exact save_data_meta_unchanged st.store st.meta ck var _ now h
  · intro last hl
    refine ⟨save_data_meta_updated st.store st.meta ck var _ now last hl, ?_⟩
    exact pairwise_le_getLast _ last (imf_ts_sorted u _ now src ck var) hl

/-- C2 witness: instantiating the amended theorem at a concrete one-record
batch, the watermark becomes (5, 9). -/
theorem c2_witness :
    (collect (Upstream.features [exFeature 5]) false [] none 9 "s" "c" "v").meta =
      some { latest_date := 5, last_updated := 9 } :=
  ((c2_watermark_update_on_nonempty_batch (Upstream.features [exFeature 5]) false
      ⟨[], none⟩ 9 "s" "c" "v").2 (mkEntry (exFeature 5) 5) (by decide)).1

/-! ### C6 -/

theorem featureEntry_some_ge {s : Nat} {f : Feature} {e : TSEntry}
    (h : featureEntry (some s) f = some e) : s ≤ e.date := by
  cases hd : f.date with
  | none => simp [featureEntry, hd] at h
  | some d =>
    simp only [featureEntry, hd] at h
    by_cases h0 : d = 0
    · simp [h0] at h
    · rw [if_neg h0] at h
      by_cases hlt : d < s
      · rw [if_pos hlt] at h; cases h
      · rw [if_neg hlt] at h
        have hme : mkEntry f d = e := by injection h
        have hdate : e.date = d := by rw [← hme]; rfl
        omega

theorem imf_ts_ge (u : Upstream) (k : Nat) (now : Nat) (src ck var : String) :
    ∀ e ∈ (imf_collect u (some k) now src ck var).time_series, k ≤ e.date := by
  cases u with
  | failure msg => intro e he; cases he
  | features fs =>
    cases fs with
    | nil => intro e he; cases he
    | cons f fs2 =>
      intro e he
      have hmem := (List.mem_insertionSort _).mp he
      rcases List.mem_filterMap.mp hmem with ⟨f2, _, hf2⟩
      exact featureEntry_some_ge hf2

theorem save_data_meta_cases (s : Store) (m : Option Watermark) (ck var : String)
    (data : FetchData) (now : Nat) :
    (save_data s m ck var data now).meta = m ∨
    ∃ last, data.time_series.getLast? = some last ∧
      (save_data s m ck var data now).meta =
        some { latest_date := last.date, last_updated := now } := by
  cases hts : data.time_series with
  | nil => exact Or.inl (save_data_meta_unchanged s m ck var data now hts)
  | cons t1 trest =>
    rcases Option.isSome_iff_exists.mp
        (List.getLast?_isSome.mpr (List.cons_ne_nil t1 trest)) with ⟨last, hlast⟩
    exact Or.inr ⟨last, hlast,
      save_data_meta_updated s m ck var data now last (by rw [hts]; exact hlast)⟩

theorem optLe_trans {a b c : Option Nat} (h1 : optLe a b) (h2 : optLe b c) : optLe a c := by
  intro x hx
  rcases h1 x hx with ⟨y, hy, hxy⟩
  rcases h2 y hy with ⟨z, hz, hyz⟩
  exact ⟨z, hz, Nat.le_trans hxy hyz⟩

theorem collect_incremental_wm_step (u : Upstream) (st : CState) (now : Nat)
    (src ck var : String) :
    optLe (wmLatest st.meta) (wmLatest (collectStep src ck var st (u, true, now)).meta) := by
  obtain ⟨store, meta⟩ := st
  cases meta with
  | none => intro x hx; cases hx
  | some w =>
    intro x hx
    have hxw : w.latest_date = x := by
      simpa [wmLatest] using hx
    have hmeta : (collectStep src ck var ⟨store, some w⟩ (u, true, now)).meta =
        (save_data store (some w) ck var
          (imf_collect u (some (w.latest_date + 1)) now src ck var) now).meta := rfl
    rcases save_data_meta_cases store (some w) ck var
        (imf_collect u (some (w.latest_date + 1)) now src ck var) now with hsame | ⟨last, hlast, hupd⟩
    · refine ⟨x, ?_, Nat.le_refl x⟩
      rw [hmeta, hsame]
      exact hx
    · refine ⟨last.date, ?_, ?_⟩
      · rw [hmeta, hupd]
        rfl
      · have hmem := List.mem_of_getLast?_eq_some hlast
        have := imf_ts_ge u (w.latest_date + 1) now src ck var last hmem
        omega

/-- C6 counterexample: the claim as stated (over any successive successful
`collect` calls) fails on the code.  Starting empty, an incremental collect of a
record dated 5 succeeds and sets the recorded latest date to 5; a subsequent
full-mode collect that receives only a record dated 3 also succeeds (it writes
the new file for date 3) and rewrites the metadata to latest date 3 — the
watermark decreased from 5 to 3. -/
theorem c6_counterexample :
    (collect (Upstream.features [exFeature 5]) true [] none 0 "s" "c" "v").data.status = "success" ∧
    wmLatest (collect (Upstream.features [exFeature 5]) true [] none 0 "s" "c" "v").meta = some 5 ∧
    (collect (Upstream.features [exFeature 3]) false
        (collect (Upstream.features [exFeature 5]) true [] none 0 "s" "c" "v").store
        (collect (Upstream.features [exFeature 5]) true [] none 0 "s" "c" "v").meta
        1 "s" "c" "v").data.status = "success" ∧
    (collect (Upstream.features [exFeature 3]) false
        (collect (Upstream.features [exFeature 5]) true [] none 0 "s" "c" "v").store
        (collect (Upstream.features [exFeature 5]) true [] none 0 "s" "c" "v").meta
        1 "s" "c" "v").saved = 1 ∧
    wmLatest (collect (Upstream.features [exFeature 3]) false
        (collect (Upstream.features [exFeature 5]) true [] none 0 "s" "c" "v").store
        (collect (Upstream.features [exFeature 5]) true [] none 0 "s" "c" "v").meta
        1 "s" "c" "v").meta = some 3 := by
  decide

/-- C6 (amended): across any sequence of successive `collect` calls in
incremental mode, the watermark's recorded latest date never decreases — each
incremental collect fetches only records dated on or after the day following the
current latest date, so the updated latest date is always at least the previous
one.  (A full-mode collect can lower it when upstream returns only older dates.) -/
theorem c6_incremental_watermark_monotone :
    (∀ (steps : List (Upstream × Bool × Nat)) (st : CState) (src ck var : String),
      (∀ p ∈ steps, p.2.1 = true) →
      optLe (wmLatest st.meta) (wmLatest (collectSeq src ck var steps st).meta)) ∧
    (∀ (u : Upstream) (st : CState) (now : Nat) (src ck var : String) (w : Watermark),
      st.meta = some w →
      ∀ e ∈ (collect u true st.store st.meta now src ck var).data.time_series,
        w.latest_date + 1 ≤ e.date) := by
  constructor
  · intro steps
    induction steps with
    | nil => intro st src ck var _ x hx; exact ⟨x, hx, Nat.le_refl x⟩
    | cons p rest ih =>
      intro st src ck var hall
      have hp : p.2.1 = true := hall p (List.mem_cons_self p rest)
      have hstep : optLe (wmLatest st.meta)
          (wmLatest (collectStep src ck var st p).meta) := by
        obtain ⟨u, b, n⟩ := p
        have : b = true := hp
        subst this
        exact collect_incremental_wm_step u st n src ck var
      have hrest := ih (collectStep src ck var st p) src ck var
        (fun q hq => hall q (List.mem_cons_of_mem p hq))
      exact optLe_trans hstep (by simpa [collectSeq, List.foldl_cons] using hrest)
  · intro u st now src ck var w hw e he
    obtain ⟨store, meta⟩ := st
    simp only at hw
    subst hw
    exact imf_ts_ge u (w.latest_date + 1) now src ck var e he

/-- C6 witness: instantiating the amended theorem on a concrete two-step
incremental run starting from latest date 5 — both hypotheses discharged at the
concrete input — yields a recorded latest date of at least 5. -/
theorem c6_witness :
    ∃ y, wmLatest (collectSeq "s" "c" "v"
        [(Upstream.features [exFeature 8], true, 1), (Upstream.features [exFeature 9], true, 2)]
        ⟨[], some { latest_date := 5, last_updated := 0 }⟩).meta = some y ∧ 5 ≤ y :=
  c6_incremental_watermark_monotone.1
    [(Upstream.features [exFeature 8], true, 1), (Upstream.features [exFeature 9], true, 2)]
    ⟨[], some { latest_date := 5, last_updated := 0 }⟩ "s" "c" "v" (by decide) 5 (by decide)

/-! ### C5 -/

theorem contains_iff_mem {α : Type} [BEq α] [LawfulBEq α] {l : List α} {a : α} :
    l.contains a = true ↔ a ∈ l := by
  simp

theorem mem_all_dates {s n d : Nat} : d ∈ all_dates s n ↔ s ≤ d ∧ d ≤ n := by
  simp only [all_dates, List.mem_map, List.mem_range]
  constructor
  · rintro ⟨i, hi, rfl⟩
    omega
  · rintro ⟨h1, h2⟩
    exact ⟨d - s, by omega, by omega⟩

theorem all_dates_pairwise (s n : Nat) : (all_dates s n).Pairwise (· < ·) := by
  unfold all_dates
  rw [List.pairwise_map]
  exact (List.pairwise_lt_range _).imp (fun h => by omega)

/-- C5: `get_missing_dates` generates every calendar date in the inclusive range
from the start date to now and subtracts the dates with a stored observation
file, returning the remainder in ascending order; with no data directory at all
every date in range is returned (no special-case error); an absent start date
defaults to 30 days before now, and the range end is always now.  On the
concrete store {2024-01-01, 2024-01-03} (epoch days 19723 and 19725) and range
[2024-01-01, 2024-01-03] it returns exactly [2024-01-02] (epoch day 19724). -/
theorem c5_missing_dates_correct :
    (∀ (existing : List Nat) (s n d : Nat),
      d ∈ get_missing_dates true existing (some s) n ↔ s ≤ d ∧ d ≤ n ∧ d ∉ existing) ∧
    (∀ (existing : List Nat) (s n : Nat),
      (get_missing_dates true existing (some s) n).Pairwise (· < ·)) ∧
    (∀ (existing : List Nat) (s n : Nat),
      get_missing_dates false existing (some s) n = all_dates s n) ∧
    (∀ (existing : List Nat) (dirExists : Bool) (n : Nat),
      get_missing_dates dirExists existing none n =
        get_missing_dates dirExists existing (some (n - 30)) n) ∧
    get_missing_dates true [19723, 19725] (some 19723) 19725 = [19724] := by
  refine ⟨?_, ?_, ?_, ?_, by decide⟩
  · intro existing s n d
    have hdef : get_missing_dates true existing (some s) n =
        (all_dates s n).filter (fun d => !(existing.contains d)) := rfl
    rw [hdef, List.mem_filter, mem_all_dates]
    constructor
    · rintro ⟨⟨h1, h2⟩, h3⟩
      refine ⟨h1, h2, fun hmem => ?_⟩
      rw [contains_iff_mem.mpr hmem] at h3
      exact absurd h3 (by decide)
    · rintro ⟨h1, h2, h3⟩
      refine ⟨⟨h1, h2⟩, ?_⟩
      cases hc : existing.contains d
      · rfl
      · exact absurd (contains_iff_mem.mp hc) h3
  · intro existing s n
    have hdef : get_missing_dates true existing (some s) n =
        (all_dates s n).filter (fun d => !(existing.contains d)) := rfl
    rw [hdef]
    exact (all_dates_pairwise s n).sublist (List.filter_sublist _)
  · intro existing s n
    rfl
  · intro existing dirExists n
    rfl

/-! ### C9 -/

theorem scanVarsLoop_append (scan : String → String → Except String (List Nat))
    (c : String) :
    ∀ (vars : List String) (acc : List ((String × String) × List Nat)),
      scanVarsLoop scan c vars acc = acc ++ perChokeResult scan c vars := by
  intro vars
  induction vars with
  | nil => intro acc; simp [scanVarsLoop, perChokeResult]
  | cons v rest ih =>
    intro acc
    cases hscan : scan c v with
    | error e => simp [scanVarsLoop, perChokeResult, hscan]
    | ok m =>
      by_cases hm : m.isEmpty
      · simp [scanVarsLoop, perChokeResult, hscan, hm, ih]
      · simp [scanVarsLoop, perChokeResult, hscan, hm, ih]

theorem allMissingLoop_append (scan : String → String → Except String (List Nat)) :
    ∀ (cfg : List (String × Except String (List String)))
      (acc : List ((String × String) × List Nat)),
      allMissingLoop scan cfg acc = acc ++ allChokeResults scan cfg := by
  intro cfg
  induction cfg with
  | nil => intro acc; simp [allMissingLoop, allChokeResults]
  | cons p rest ih =>
    intro acc
    cases hp : p.2 with
    | error e => simp [allMissingLoop, allChokeResults, hp, ih]
    | ok vars => simp [allMissingLoop, allChokeResults, hp, ih, scanVarsLoop_append]

theorem get_all_missing_eq (cfg : List (String × Except String (List String)))
    (scan : String → String → Except String (List Nat)) :
    get_all_missing_dates cfg scan = allChokeResults scan cfg := by
  simpa [get_all_missing_dates] using allMissingLoop_append scan cfg []

theorem mem_perChokeResult (scan : String → String → Except String (List Nat))
    (c : String) :
    ∀ (vars : List String) (v : String) (m : List Nat),
      v ∈ vars → (∀ v2 ∈ vars, ∃ m2, scan c v2 = Except.ok m2) →
      scan c v = Except.ok m → m ≠ [] →
      ((c, v), m) ∈ perChokeResult scan c vars := by
  intro vars
  induction vars with
  | nil => intro v m hv; cases hv
  | cons v2 rest ih =>
    intro v m hv hall hscan hm
    rcases List.mem_cons.mp hv with rfl | hv2
    · have hme : m.isEmpty = false := by
        cases hme2 : m.isEmpty
        · rfl
        · cases hm (List.isEmpty_iff.mp hme2)
      simp only [perChokeResult, hscan, hme, Bool.false_eq_true, if_false]
      exact List.mem_append_left _ (List.mem_singleton.mpr rfl)
    · rcases hall v2 (List.mem_cons_self v2 rest) with ⟨m2, hm2⟩
      simp only [perChokeResult, hm2]
      exact List.mem_append_right _
        (ih v m hv2 (fun v3 hv3 => hall v3 (List.mem_cons_of_mem v2 hv3)) hscan hm)

theorem mem_allChokeResults (scan : String → String → Except String (List Nat)) :
    ∀ (cfg : List (String × Except String (List String))) (c : String)
      (vars : List String) (x : (String × String) × List Nat),
      (c, Except.ok vars) ∈ cfg → x ∈ perChokeResult scan c vars →
      x ∈ allChokeResults scan cfg := by
  intro cfg
  induction cfg with
  | nil => intro c vars x hc; cases hc
  | cons q rest ih =>
    intro c vars x hc hx
    rcases List.mem_cons.mp hc with rfl | hc2
    · exact List.mem_append_left _ hx
    · exact List.mem_append_right _ (ih c vars x hc2 hx)

/-- C9 counterexample: the claim fails on the code.  With chokepoint A holding
variables v1 and v2 and chokepoint B holding v3, a failure while scanning A.v1
aborts the rest of A's variable loop: A.v2 could be scanned (its scan succeeds
with the non-empty missing list [1]) yet the returned mapping only contains
B.v3 — the per-chokepoint `try` swallows the failure together with every
not-yet-scanned variable of that chokepoint. -/
theorem c9_counterexample :
    get_all_missing_dates exCfg exScan = [(("B", "v3"), [2])] ∧
    exScan "A" "v1" = Except.error "OSError" ∧
    exScan "A" "v2" = Except.ok [1] :=
  ⟨by decide, rfl, rfl⟩

/-- C9 (amended): a failure while loading a chokepoint's config or while
scanning one of its variables aborts only the remainder of that chokepoint's
scan (entries recorded before the failure are kept, later variables of the same
chokepoint are dropped); every other chokepoint's scan still completes — the
result is exactly the concatenation of each chokepoint's isolated contribution,
and in particular every variable of a chokepoint whose scans all succeed
appears with its non-empty missing-date list. -/
theorem c9_failure_isolated_per_chokepoint :
    (∀ (cfg : List (String × Except String (List String)))
       (scan : String → String → Except String (List Nat)),
      get_all_missing_dates cfg scan = allChokeResults scan cfg) ∧
    (∀ (cfg : List (String × Except String (List String)))
       (scan : String → String → Except String (List Nat))
       (c : String) (vars : List String) (v : String) (m : List Nat),
      (c, Except.ok vars) ∈ cfg → v ∈ vars →
      (∀ v2 ∈ vars, ∃ m2, scan c v2 = Except.ok m2) →
      scan c v = Except.ok m → m ≠ [] →
      ((c, v), m) ∈ get_all_missing_dates cfg scan) := by
  refine ⟨get_all_missing_eq, ?_⟩
  intro cfg scan c vars v m hc hv hall hscan hm
  rw [get_all_missing_eq]
  exact mem_allChokeResults scan cfg c vars ((c, v), m) hc
    (mem_perChokeResult scan c vars v m hv hall hscan hm)

/-- C9 witness: instantiating the amended theorem on the sample configuration:
chokepoint B's scans all succeed, so B.v3 appears in the result even though
A.v1's scan raised. -/
theorem c9_witness :
    (("B", "v3"), [2]) ∈ get_all_missing_dates exCfg exScan :=
  c9_failure_isolated_per_chokepoint.2 exCfg exScan "B" ["v3"] "v3" [2]
    (by simp [exCfg])
    (List.mem_singleton.mpr rfl)
    (by
      intro v2 hv2
      rcases List.mem_singleton.mp hv2 with rfl
      exact ⟨[2], rfl⟩)
    rfl
    (by decide)

/-! ### Processor helper lemmas -/

theorem rowLine_ends (r : CsvRow) : ∃ pre, rowLine r = pre ++ ['\n'] := by
  refine ⟨natChars r.date ++ [','] ++ natChars r.vessel_count ++ [','] ++
    natChars r.container ++ [','] ++ natChars r.dry_bulk ++ [','] ++
    natChars r.general_cargo ++ [','] ++ natChars r.roro ++ [','] ++
    natChars r.tanker ++ [','] ++ r.collected_at ++ [','] ++
    r.chokepoint ++ [','] ++ r.variable_name ++ ['\r'], ?_⟩
  simp [rowLine, crlf]

theorem writeRows_cons (r : CsvRow) (rows : List CsvRow) :
    writeRows (r :: rows) = rowLine r ++ writeRows rows := by
  simp [writeRows]

theorem writeRows_ends_newline :
    ∀ (rows : List CsvRow), rows ≠ [] → ∃ pre, writeRows rows = pre ++ ['\n'] := by
  intro rows
  induction rows with
  | nil => intro h; exact absurd rfl h
  | cons r rest ih =>
    intro _
    by_cases hr : rest = []
    · subst hr
      rcases rowLine_ends r with ⟨pre, hpre⟩
      exact ⟨pre, by simp [writeRows, hpre]⟩
    · rcases ih hr with ⟨pre, hpre⟩
      exact ⟨rowLine r ++ pre, by rw [writeRows_cons, hpre, List.append_assoc]⟩

theorem fullRowsLoop_error :
    ∀ (l : List (Nat × RawStored)),
      (∃ p ∈ l, ∃ e, fullRow p.2 = Except.error e) →
      ∃ e2, fullRowsLoop l = Except.error e2 := by
  intro l
  induction l with
  | nil => rintro ⟨p, hp, _⟩; cases hp
  | cons a t ih =>
    rintro ⟨p, hp, e, hpe⟩
    cases hfa : fullRow a.2 with
    | error ea => exact ⟨ea, by rw [fullRowsLoop, hfa]⟩
    | ok row =>
      have hpt : p ∈ t := by
        rcases List.mem_cons.mp hp with rfl | h
        · rw [hfa] at hpe; cases hpe
        · exact h
      rcases ih ⟨p, hpt, e, hpe⟩ with ⟨e2, he2⟩
      exact ⟨e2, by rw [fullRowsLoop, hfa, he2]⟩

theorem jsonRowsLoop_error :
    ∀ (l : List (Nat × RawStored)),
      (∃ p ∈ l, ∃ e, jsonEntryOf p.2 = Except.error e) →
      ∃ e2, jsonRowsLoop l = Except.error e2 := by
  intro l
  induction l with
  | nil => rintro ⟨p, hp, _⟩; cases hp
  | cons a t ih =>
    rintro ⟨p, hp, e, hpe⟩
    cases hfa : jsonEntryOf a.2 with
    | error ea => exact ⟨ea, by rw [jsonRowsLoop, hfa]⟩
    | ok row =>
      have hpt : p ∈ t := by
        rcases List.mem_cons.mp hp with rfl | h
        · rw [hfa] at hpe; cases hpe
        · exact h
      rcases ih ⟨p, hpt, e, hpe⟩ with ⟨e2, he2⟩
      exact ⟨e2, by rw [jsonRowsLoop, hfa, he2]⟩

/-- The incremental-append path of `process_to_csv`, fully reduced: with a
sorted directory listing, a non-empty existing artifact and a non-empty set of
pending rows, the render appends the pending rows after the existing content,
first inserting a newline when the content does not already end with one. -/
theorem process_append_path (entries : List (Nat × RawStored)) (content : Content)
    (ck var : Content)
    (hsorted : entries.Pairwise (fun a b => a.1 ≤ b.1))
    (hcontent : content ≠ [])
    (hnew : collectLoop (parseCsvDates content) ck var entries ≠ []) :
    process_to_csv true (some entries) (some content) ck var =
      Except.ok (some (content ++
        (if content.getLast? = some '\n' then [] else ['\n']) ++
        writeRows (collectLoop (parseCsvDates content) ck var entries))) := by
  have hsort : List.insertionSort (fun a b => a.1 ≤ b.1) entries = entries :=
    List.Sorted.insertionSort_eq hsorted
  have hne : entries ≠ [] := by
    intro h
    subst h
    exact hnew rfl
  have hempty : entries.isEmpty = false := by
    cases entries with
    | nil => exact absurd rfl hne
    | cons a t => rfl
  have hnewEmpty : (collectLoop (parseCsvDates content) ck var entries).isEmpty = false := by
    cases hL : collectLoop (parseCsvDates content) ck var entries with
    | nil => exact absurd hL hnew
    | cons a t => rfl
  obtain ⟨c0, hc0⟩ : ∃ c0, content.getLast? = some c0 :=
    Option.isSome_iff_exists.mp (List.getLast?_isSome.mpr hcontent)
  have htnc : trailingNewlineCheck content = Except.ok (c0 != '\n') := by
    unfold trailingNewlineCheck
    rw [hc0]
  have hpad : (if (c0 != '\n') then ['\n'] else ([] : Content)) =
      (if content.getLast? = some '\n' then [] else ['\n']) := by
    by_cases hc : c0 = '\n'
    · simp [hc0, hc]
    · simp [hc0, hc]
  simp only [process_to_csv, hsort, hempty, Bool.false_eq_true, if_false,
    hnewEmpty, Bool.not_false, Option.isSome_some, Bool.and_true, Bool.and_self,
    if_true, htnc, hpad]

theorem guardedSome_date {processed : List Content} {ck var : Content}
    {p : Nat × RawStored} {r : CsvRow}
    (h : (if processed.contains (natChars p.1) then none
      else if !p.2.isDict || p.2.date.isNone then none
      else some (incRow p.1 ck var p.2)) = some r)
    (hdate : p.2.date = some p.1) :
    r.date = p.1 ∧ processed.contains (natChars p.1) = false := by
  cases hc : processed.contains (natChars p.1) with
  | true => rw [hc] at h; simp at h
  | false =>
    rw [hc] at h
    simp only [Bool.false_eq_true, if_false] at h
    cases hg : (!p.2.isDict || p.2.date.isNone) with
    | true => rw [hg] at h; simp at h
    | false =>
      rw [hg] at h
      simp only [Bool.false_eq_true, if_false, Option.some.injEq] at h
      subst h
      exact ⟨by simp [incRow, hdate], rfl⟩

/-! ### C7 -/

/-- C7: in incremental mode with an existing non-empty CSV artifact, the render
appends exactly the rows for stored dates absent from the artifact's date
column, in ascending date order, leaves all prior content untouched (the result
extends the old content), and preserves the trailing-newline contract: when the
existing file does not end with a newline one is inserted before the appended
rows, and the final file is terminated by a newline.  (Hypotheses: the directory
listing is in stem order, the stored records are well-formed with their internal
date equal to their file stem — which is what `save_data` writes — the existing
artifact is non-empty, and at least one date is pending.) -/
theorem c7_incremental_render_appends (entries : List (Nat × RawStored))
    (content : Content) (ck var : Content)
    (hsorted : entries.Pairwise (fun a b => a.1 ≤ b.1))
    (hwf : ∀ p ∈ entries, p.2.isDict = true ∧ p.2.date = some p.1)
    (hcontent : content ≠ [])
    (hnew : collectLoop (parseCsvDates content) ck var entries ≠ []) :
    process_to_csv true (some entries) (some content) ck var =
      Except.ok (some (content ++
        (if content.getLast? = some '\n' then [] else ['\n']) ++
        writeRows (collectLoop (parseCsvDates content) ck var entries))) ∧
    collectLoop (parseCsvDates content) ck var entries =
      entries.filterMap (fun p =>
        if (parseCsvDates content).contains (natChars p.1) then none
        else some (incRow p.1 ck var p.2)) ∧
    (collectLoop (parseCsvDates content) ck var entries).Pairwise
      (fun a b => a.date ≤ b.date) ∧
    (∀ r ∈ collectLoop (parseCsvDates content) ck var entries,
      natChars r.date ∉ parseCsvDates content) ∧
    (∃ pre, content ++
        (if content.getLast? = some '\n' then [] else ['\n']) ++
        writeRows (collectLoop (parseCsvDates content) ck var entries) = pre ++ ['\n']) := by
  refine ⟨process_append_path entries content ck var hsorted hcontent hnew, ?_, ?_, ?_, ?_⟩
  · unfold collectLoop
    apply List.filterMap_congr
    intro p hp
    rcases hwf p hp with ⟨h1, h2⟩
    rw [h1, h2]
    simp
  · simp only [collectLoop]
    rw [List.pairwise_filterMap]
    refine hsorted.imp_of_mem ?_
    intro a b ha hb hab r hr r2 hr2
    rcases guardedSome_date (Option.mem_def.mp hr) (hwf a ha).2 with ⟨hda, _⟩
    rcases guardedSome_date (Option.mem_def.mp hr2) (hwf b hb).2 with ⟨hdb, _⟩
    rw [hda, hdb]
    exact hab
  · intro r hr
    simp only [collectLoop] at hr
    rcases List.mem_filterMap.mp hr with ⟨p, hp, hfp⟩
    rcases guardedSome_date hfp (hwf p hp).2 with ⟨hd, hc⟩
    rw [hd]
    intro hmem
    rw [contains_iff_mem.mpr hmem] at hc
    cases hc
  · rcases writeRows_ends_newline _ hnew with ⟨pre, hpre⟩
    refine ⟨content ++ (if content.getLast? = some '\n' then [] else ['\n']) ++ pre, ?_⟩
    rw [hpre]
    simp [List.append_assoc]

/-- C7 witness: an artifact holding the date-5 row plus stored records for dates
5, 6 and 7 — the incremental render appends exactly the pending rows. -/
theorem c7_witness :
    exC7Content ≠ [] ∧
    process_to_csv true (some exC7Entries) (some exC7Content) "c".data "v".data =
      Except.ok (some (exC7Content ++
        (if exC7Content.getLast? = some '\n' then [] else ['\n']) ++
        writeRows (collectLoop (parseCsvDates exC7Content) "c".data "v".data exC7Entries))) :=
  ⟨by decide,
   (c7_incremental_render_appends exC7Entries exC7Content "c".data "v".data
      (by decide) (by decide) (by decide) (by decide)).1⟩

/-! ### C8 -/

/-- C8 counterexample: the claim fails on the code.  With a well-formed record
for date 19723 and a dict lacking its `date` key for date 19724, a full-mode CSV
render aborts with the record's `KeyError` instead of skipping it — the
full-rewrite loop re-reads every file with unguarded subscript access — and so
does the JSON render; the well-formed record (whose full row builds fine) is not
rendered at all. -/
theorem c8_counterexample :
    process_to_csv false (some [(19723, exGoodStored 19723), (19724, exBadStored)]) none
        "c".data "v".data = Except.error "KeyError: date" ∧
    process_to_json (some [(19723, exGoodStored 19723), (19724, exBadStored)]) =
      Except.error "KeyError: date" ∧
    exBadStored.isDict = true ∧
    exBadStored.date = none ∧
    fullRow (exGoodStored 19723) =
      Except.ok
        { date := 19723, vessel_count := 7, container := 2, dry_bulk := 1,
          general_cargo := 1, roro := 1, tanker := 2, collected_at := "t0".data,
          chokepoint := "bab-el-mandeb".data, variable_name := "vessel_arrivals".data } :=
  ⟨rfl, rfl, rfl, rfl, rfl⟩

/-- C8 (amended): a malformed stored record — not a dict or missing required
fields such as `date` — is skipped with a warning only by the incremental CSV
collection loop: on the incremental-append path the render completes and the
remaining well-formed records are still rendered.  A render that takes the
full-rewrite CSV path, and a JSON render, re-read every record with unguarded
field access and abort with that record's exception instead. -/
theorem c8_malformed_skipped_only_on_append_path :
    (∀ (entries : List (Nat × RawStored)) (content : Content) (ck var : Content),
      entries.Pairwise (fun a b => a.1 ≤ b.1) → content ≠ [] →
      collectLoop (parseCsvDates content) ck var entries ≠ [] →
      process_to_csv true (some entries) (some content) ck var =
        Except.ok (some (content ++
          (if content.getLast? = some '\n' then [] else ['\n']) ++
          writeRows (collectLoop (parseCsvDates content) ck var entries)))) ∧
    (∀ (processed : List Content) (ck var : Content)
       (entries : List (Nat × RawStored)) (r : CsvRow),
      r ∈ collectLoop processed ck var entries ↔
        ∃ p, p ∈ entries ∧ processed.contains (natChars p.1) = false ∧
          p.2.isDict = true ∧ p.2.date.isNone = false ∧ r = incRow p.1 ck var p.2) ∧
    (∀ (entries : List (Nat × RawStored)) (ck var : Content),
      (∃ p ∈ entries, ∃ e, fullRow p.2 = Except.error e) →
      (∃ q ∈ entries, q.2.isDict = true ∧ q.2.date.isNone = false) →
      ∃ e2, process_to_csv false (some entries) none ck var = Except.error e2) ∧
    (∀ (entries : List (Nat × RawStored)),
      (∃ p ∈ entries, ∃ e, jsonEntryOf p.2 = Except.error e) →
      ∃ e2, process_to_json (some entries) = Except.error e2) := by
  refine ⟨process_append_path, ?_, ?_, ?_⟩
  · intro processed ck var entries r
    simp only [collectLoop]
    rw [List.mem_filterMap]
    constructor
    · rintro ⟨p, hp, hfp⟩
      cases hc : processed.contains (natChars p.1) with
      | true => rw [hc] at hfp; simp at hfp
      | false =>
        rw [hc] at hfp
        simp only [Bool.false_eq_true, if_false] at hfp
        cases hg : (!p.2.isDict || p.2.date.isNone) with
        | true => rw [hg] at hfp; simp at hfp
        | false =>
          rw [hg] at hfp
          simp only [Bool.false_eq_true, if_false, Option.some.injEq] at hfp
          rcases Bool.or_eq_false_iff.mp hg with ⟨hd, hn⟩
          refine ⟨p, hp, hc, ?_, hn, hfp.symm⟩
          cases hdd : p.2.isDict
          · rw [hdd] at hd; cases hd
          · rfl
    · rintro ⟨p, hp, hc, hd, hn, rfl⟩
      refine ⟨p, hp, ?_⟩
      rw [hc, hd, hn]
      simp
  · intro entries ck var hbad hgood
    rcases hbad with ⟨p, hp, e, hpe⟩
    rcases hgood with ⟨q, hq, hqd, hqn⟩
    have hqmem : q ∈ List.insertionSort (fun a b => a.1 ≤ b.1) entries :=
      (List.mem_insertionSort _).mpr hq
    have hempty : (List.insertionSort (fun a b => a.1 ≤ b.1) entries).isEmpty = false := by
      cases hE : List.insertionSort (fun a b => a.1 ≤ b.1) entries with
      | nil => rw [hE] at hqmem; cases hqmem
      | cons a t => rfl
    have hrow : incRow q.1 ck var q.2 ∈
        collectLoop [] ck var (List.insertionSort (fun a b => a.1 ≤ b.1) entries) := by
      simp only [collectLoop]
      refine List.mem_filterMap.mpr ⟨q, hqmem, ?_⟩
      rw [List.contains_nil, hqd, hqn]
      simp
    have hAempty : (collectLoop [] ck var
        (List.insertionSort (fun a b => a.1 ≤ b.1) entries)).isEmpty = false := by
      cases hA : collectLoop [] ck var (List.insertionSort (fun a b => a.1 ≤ b.1) entries) with
      | nil => rw [hA] at hrow; cases hrow
      | cons a t => rfl
    rcases fullRowsLoop_error (List.insertionSort (fun a b => a.1 ≤ b.1) entries)
        ⟨p, (List.mem_insertionSort _).mpr hp, e, hpe⟩ with ⟨e2, he2⟩
    refine ⟨e2, ?_⟩
    simp only [process_to_csv, hempty, Bool.false_eq_true, if_false, hAempty,
      Bool.not_false, Bool.false_and, Option.isNone_none, Bool.or_true, if_true, he2]
  · intro entries hbad
    rcases hbad with ⟨p, hp, e, hpe⟩
    have hpmem : p ∈ List.insertionSort (fun a b => a.1 ≤ b.1) entries :=
      (List.mem_insertionSort _).mpr hp
    have hempty : (List.insertionSort (fun a b => a.1 ≤ b.1) entries).isEmpty = false := by
      cases hE : List.insertionSort (fun a b => a.1 ≤ b.1) entries with
      | nil => rw [hE] at hpmem; cases hpmem
      | cons a t => rfl
    rcases jsonRowsLoop_error (List.insertionSort (fun a b => a.1 ≤ b.1) entries)
        ⟨p, hpmem, e, hpe⟩ with ⟨e2, he2⟩
    refine ⟨e2, ?_⟩
    simp only [process_to_json, hempty, Bool.false_eq_true, if_false, he2]

/-- C8 witness: with a malformed record for date 6 between well-formed records
for dates 5 and 7, the incremental-append render completes, skipping the
malformed record. -/
theorem c8_witness :
    process_to_csv true (some exC8Entries) (some exC7Content) "c".data "v".data =
      Except.ok (some (exC7Content ++
        (if exC7Content.getLast? = some '\n' then [] else ['\n']) ++
        writeRows (collectLoop (parseCsvDates exC7Content) "c".data "v".data exC8Entries))) :=
  c8_malformed_skipped_only_on_append_path.1 exC8Entries exC7Content "c".data "v".data
    (by decide) (by decide) (by decide)

/-! ### C10 -/

/-- C10: if an incremental CSV render finds an existing but zero-byte artifact
and at least one new record, the trailing-newline check — which seeks to one
byte before the end of the file — raises `OSError` and the render aborts instead
of appending; more generally, with an empty existing artifact an incremental
render can only succeed by appending nothing (it returns the artifact
unchanged), so the incremental-append path completes only when the existing CSV
is non-empty. -/
theorem c10_empty_existing_csv_aborts :
    process_to_csv true (some [(19723, exGoodStored 19723)]) (some []) "c".data "v".data =
      Except.error "OSError: Invalid argument" ∧
    (∀ (entries : List (Nat × RawStored)) (ck var : Content) (res : Option Content),
      process_to_csv true (some entries) (some []) ck var = Except.ok res →
      res = some []) := by
  refine ⟨rfl, ?_⟩
  intro entries ck var res h
  simp only [process_to_csv, if_true] at h
  cases hE : (List.insertionSort (fun a b => a.1 ≤ b.1) entries).isEmpty with
  | true => rw [hE] at h; simp at h
  | false =>
    rw [hE] at h
    simp only [Bool.false_eq_true, if_false] at h
    cases hA : (collectLoop (parseCsvDates []) ck var
        (List.insertionSort (fun a b => a.1 ≤ b.1) entries)).isEmpty with
    | false =>
      rw [hA] at h
      simp only [Bool.not_false, Option.isSome_some, Bool.and_true, Bool.and_self,
        if_true] at h
      cases h
    | true =>
      rw [hA] at h
      simp only [Bool.not_true, Bool.and_false, Bool.false_eq_true, if_false] at h
      exact (Except.ok.inj h).symm

/-- C10 witness: with an empty existing artifact and a directory holding only a
malformed record (so nothing is pending), the incremental render succeeds and
returns the artifact unchanged — satisfying the theorem's hypothesis and
conclusion at a concrete input. -/
theorem c10_witness :
    (some ([] : Content)) = some ([] : Content) :=
  c10_empty_existing_csv_aborts.2 [(5, exBadStored)] "c".data "v".data (some []) rfl

end SeeSea
